import Mathlib

/-!
Verification development for the build-file evaluator of this repository
(the sandboxed build-description processor and its result encoder).

The evaluator's implementation is not present under `src/` (only its test
suite is), so the definitions below are a shallow embedding modelled from
the specification: build-file bodies are represented as an abstract syntax
of statements and expressions, evaluation threads an explicit state
(scopes, rule list, diagnostics, provenance, the injected glob service),
and the result encoder is a total function to a wire-format payload.
-/

namespace BuckParser

/-- Modelled from the spec: runtime values of the restricted build language
(the concrete value representation is part of the missing evaluator).
`pynone` is the absent/unset sentinel, `func tag` a callable whose
observable behaviour is identified by its tag, and `pyobject` an opaque,
non-serializable host object. -/
inductive Value where
  | int (n : Int)
  | str (s : String)
  | bool (b : Bool)
  | strlist (ss : List String)
  | pairlist (ps : List (String × String))
  | pynone
  | func (tag : String)
  | pyobject
deriving Repr, DecidableEq

/-- Modelled from the spec: a structured diagnostic
`{level, source, message}` accumulated by the Diagnostics Collector. -/
structure Diagnostic where
  level : String
  source : String
  message : String
deriving Repr, DecidableEq

/-- Modelled from the spec: one response of the injected glob service,
`query(patterns, excludes) -> {files, warning?}`. -/
structure GlobResponse where
  files : List String
  warning : Option String
deriving Repr, DecidableEq

/-- Modelled from the spec: the error taxonomy of the evaluator (kinds,
not concrete host exception types). -/
inductive EvalError where
  | undefinedReference (name : String)
  | symbolNotFound (path : String) (symbol : String)
  | invalidReference (message : String)
  | assertionFailure (message : String)
  | valueError
  | notCallable
  | globServiceError
deriving Repr, DecidableEq

/-- A scope is an association list from identifier to value; the most
recent binding of a name shadows older ones. -/
abbrev Env : Type := List (String × Value)

/-- A rule record: attribute name to value, first entry the reserved
type-tag key. -/
abbrev Rule : Type := List (String × Value)

/-- Quote a string in single quotes, as the host language would print it. -/
def pyQuote (s : String) : String := "\x27" ++ s ++ "\x27"

/-- Comma-separated quoted items of a printed list. -/
def pyListReprAux : List String → String
  | [] => ""
  | [s] => pyQuote s
  | s :: rest => pyQuote s ++ ", " ++ pyListReprAux rest

/-- Render a list of strings the way the host language prints it,
for example `[\x27e1\x27, \x27e2\x27]`. -/
def pyListRepr (l : List String) : String :=
  "[" ++ pyListReprAux l ++ "]"

/-- Modelled from the spec: the message of the relative-load boundary
error (relative loads are permitted only for same-directory siblings). -/
def relativeLoadMessage : String :=
  "Relative loads work only for files in the same directory. " ++
  "Please use absolute label instead ([cell]//pkg[/pkg]:target)."

/-- Modelled from the spec: the glob entry point rejects passing both the
`exclude` and the `excludes` keyword at once; the message shows the single
merged excludes list to use instead. The check itself is absent from
`src/`; its behaviour is fixed by its test. -/
def globMixMessage (exclude excludes : List String) : String :=
  "Mixing \x27exclude\x27 and \x27excludes\x27 attributes is not allowed. " ++
  "Please replace your exclude and excludes arguments with a single " ++
  "\x27excludes = " ++ pyListRepr (exclude ++ excludes) ++ "\x27."

/-- Modelled from the spec: the warning attached to a read of a file that
was not registered as a dependency; it describes the untracked path and
instructs the author to register it. -/
def accessMessage (path : String) : String :=
  "Access to a non-tracked file detected! " ++ path ++
  " is not a known dependency and it should be added using " ++
  "\x27add_build_file_dep\x27 function before trying to access the file."

/-- Human-readable rendering of an evaluation error. -/
def errorMessage : EvalError → String
  | .undefinedReference n => "name " ++ pyQuote n ++ " is not defined"
  | .symbolNotFound p s => "\"" ++ s ++ "\" is not defined in " ++ p
  | .invalidReference m => m
  | .assertionFailure m => m
  | .valueError => "ValueError"
  | .notCallable => "object is not callable"
  | .globServiceError => "glob service query failed"

/-- Modelled from the spec: a scope's exported names — an explicit
whitelist when the module binds one, otherwise every name not prefixed as
private. -/
def exportedNames (env : Env) : List String :=
  match List.lookup "__all__" env with
  | some (.strlist ss) => ss
  | _ => ((env : List (String × Value)).map Prod.fst).filter
      (fun n => !(n.toList.head? = some '_' : Bool))

/-- The exported bindings of a module scope: each exported name paired
with its value in the scope. -/
def exportBindings (env : Env) : Env :=
  (exportedNames env).filterMap (fun n =>
    match List.lookup n env with
    | some v => some (n, v)
    | none => Option.none)

/-- Modelled from the spec: `extract_symbols` — for each requested
`(localName, originalName)` pair, fail with `SymbolNotFoundError` (naming
the module's absolute source path and the missing symbol) when the
original name is absent from the module's exported set, otherwise bind the
local name only. -/
def extractSymbols (path : String) (modEnv : Env) :
    List (String × String) → Except EvalError Env
  | [] => .ok ([] : List (String × Value))
  | (localName, orig) :: rest =>
      if orig ∈ exportedNames modEnv then
        match List.lookup orig modEnv with
        | some v =>
            match extractSymbols path modEnv rest with
            | .error e => .error e
            | .ok binds => .ok (((localName, v) :: binds : List (String × Value)))
        | none => .error (.symbolNotFound path orig)
      else .error (.symbolNotFound path orig)

/-- Modelled from the spec: a load reference, already parsed — either
relative (`:name`, valid only for same-directory siblings) or absolute
(`//pkg:name`). -/
inductive LoadRef where
  | relative (name : String)
  | absolute (pkg : String) (name : String)
deriving Repr, DecidableEq

/-- Modelled from the spec: `resolve(reference, requesting_context)` —
turn a load reference into an absolute path; a relative reference that
crosses a directory boundary fails with `InvalidReferenceError`. -/
def resolveLoad (ref : LoadRef) (dir root : String) : Except EvalError String :=
  match ref with
  | .relative name =>
      if name.toList.contains '/' then .error (.invalidReference relativeLoadMessage)
      else .ok (dir ++ "/" ++ name)
  | .absolute pkg name =>
      if pkg = "" then .ok (root ++ "/" ++ name)
      else .ok (root ++ "/" ++ pkg ++ "/" ++ name)

/-- The directory part of a path: everything before the last slash. -/
def dirOf (p : String) : String :=
  String.mk (((p.toList.reverse.dropWhile (fun c => c ≠ '/')).drop 1).reverse)

/-- Modelled from the spec: the per-build-file Build Environment plus the
evaluator-instance collaborators — current scope (`globals` over the
sandbox `builtins`), rule list, ordered diagnostics, registered
file dependencies, environment-read provenance, the process environment,
and the scripted glob-service responses. -/
structure EvalState where
  root : String
  dir : String
  builtins : Env
  globals : Env
  rules : List Rule
  diagnostics : List Diagnostic
  deps : List String
  usedEnv : List (String × Option String)
  procEnv : List (String × String)
  globResponses : List GlobResponse
deriving Repr, DecidableEq

/-- Modelled from the spec: expressions of the restricted build language
that the claims exercise — literals, name references, calls, the glob
entry point, and the intercepted environment-variable reads. -/
inductive Expr where
  | lit (v : Value)
  | var (n : String)
  | callVar (n : String)
  | glob (patterns : List String) (exclude : List String) (excludes : List String)
  | getenv (n : String) (dflt : Option Value)
  | envContains (n : String)
  | envItems
deriving Repr

/-- Modelled from the spec: statements of the restricted build language.
Since there is no filesystem in the model, `includeDefs` and `load` carry
the referenced module's parsed body alongside its path or reference. -/
inductive Stmt where
  | assign (n : String) (e : Expr)
  | exprStmt (e : Expr)
  | includeDefs (path : String) (body : List Stmt)
  | load (ref : LoadRef) (body : List Stmt) (symbols : List (String × String))
  | addBuildFileDep (path : String)
  | readFile (path : String)
  | addRule (ruleType : String) (attrs : List (String × Expr))
deriving Repr

/-- Name lookup: the current scope first, then the sandbox builtins. -/
def lookupName (st : EvalState) (n : String) : Option Value :=
  match List.lookup n st.globals with
  | some v => some v
  | none => List.lookup n st.builtins

/-- Calling a function value: the tag `"raise"` models a callable that
raises, any other tag models a callable observably returning its tag. -/
def applyFunc (tag : String) (st : EvalState) : Except EvalError (Value × EvalState) :=
  if tag = "raise" then .error .valueError else .ok (.str tag, st)

/-- Apply a value as a callable. -/
def applyCall (v : Value) (st : EvalState) : Except EvalError (Value × EvalState) :=
  match v with
  | .func tag => applyFunc tag st
  | _ => .error .notCallable

/-- Modelled from the spec: a glob-service warning becomes a Diagnostic
with source `glob-provider`, level `warning`. -/
def globWarningDiag (w : String) : Diagnostic :=
  { level := "warning", source := "glob-provider", message := w }

/-- Modelled from the spec: the sandbox warning for a read of an
untracked file. -/
def accessTrackingDiag (path : String) : Diagnostic :=
  { level := "warning", source := "sandbox", message := accessMessage path }

/-- Modelled from the spec: expression evaluation. Glob queries consume
the scripted responses in order and append the optional warning as a
diagnostic at the moment of the call; every environment read records the
variable with the observed value (or its absence) in the provenance
mapping before producing a result. -/
def evalExpr (st : EvalState) : Expr → Except EvalError (Value × EvalState)
  | .lit v => .ok (v, st)
  | .var n =>
      match lookupName st n with
      | some v => .ok (v, st)
      | none => .error (.undefinedReference n)
  | .callVar n =>
      match lookupName st n with
      | some v => applyCall v st
      | none => .error (.undefinedReference n)
  | .glob _patterns exclude excludes =>
      if exclude ≠ [] ∧ excludes ≠ [] then
        .error (.assertionFailure (globMixMessage exclude excludes))
      else
        match st.globResponses with
        | [] => .error .globServiceError
        | r :: rest =>
            .ok (.strlist r.files,
              { st with
                globResponses := rest,
                diagnostics := st.diagnostics ++
                  (match r.warning with
                   | some w => [globWarningDiag w]
                   | none => []) })
  | .getenv n dflt =>
      let observed := List.lookup n st.procEnv
      let st1 := { st with usedEnv := (n, observed) :: st.usedEnv }
      match observed with
      | some s => .ok (.str s, st1)
      | none => .ok (dflt.getD Value.pynone, st1)
  | .envContains n =>
      let observed := List.lookup n st.procEnv
      .ok (.bool observed.isSome,
        { st with usedEnv := (n, observed) :: st.usedEnv })
  | .envItems =>
      .ok (.pairlist st.procEnv,
        { st with usedEnv := st.procEnv.map (fun p => (p.1, some p.2)) ++ st.usedEnv })

/-- Evaluate rule attributes left to right, threading the state. -/
def evalAttrs (st : EvalState) : List (String × Expr) →
    Except EvalError (List (String × Value) × EvalState)
  | [] => .ok ([], st)
  | (k, e) :: rest =>
      match evalExpr st e with
      | .error err => .error err
      | .ok (v, st1) =>
          match evalAttrs st1 rest with
          | .error err => .error err
          | .ok (kvs, st2) => .ok ((k, v) :: kvs, st2)

mutual

/-- Modelled from the spec: statement execution. An include or load
evaluates the referenced module in a fresh scope over the sandbox
builtins only, then merges only the module's exported bindings (for
`load`, only the requested symbols under their local names) into the
requesting scope; a read of an unregistered file appends one sandbox
warning and continues; `addRule` appends a rule record carrying the
reserved type-tag key. -/
def execStmt (st : EvalState) : Stmt → Except EvalError EvalState
  | .assign n e =>
      match evalExpr st e with
      | .error err => .error err
      | .ok (v, st1) => .ok { st1 with globals := ((n, v) :: st1.globals : List (String × Value)) }
  | .exprStmt e =>
      match evalExpr st e with
      | .error err => .error err
      | .ok (_, st1) => .ok st1
  | .includeDefs path body =>
      match execStmts { st with globals := ([] : List (String × Value)), dir := dirOf path } body with
      | .error err => .error err
      | .ok ms =>
          .ok { ms with globals := exportBindings ms.globals ++ st.globals, dir := st.dir }
  | .load ref body symbols =>
      match resolveLoad ref st.dir st.root with
      | .error err => .error err
      | .ok path =>
          match execStmts { st with globals := ([] : List (String × Value)), dir := dirOf path } body with
          | .error err => .error err
          | .ok ms =>
              match extractSymbols path ms.globals symbols with
              | .error err => .error err
              | .ok binds => .ok { ms with globals := binds ++ st.globals, dir := st.dir }
  | .addBuildFileDep path => .ok { st with deps := path :: st.deps }
  | .readFile path =>
      if path ∈ st.deps then .ok st
      else .ok { st with diagnostics := st.diagnostics ++ [accessTrackingDiag path] }
  | .addRule ruleType attrs =>
      match evalAttrs st attrs with
      | .error err => .error err
      | .ok (kvs, st1) =>
          .ok { st1 with rules := st1.rules ++ [(("buck.type", Value.str ruleType) :: kvs : List (String × Value))] }

/-- Execute a statement list in order, stopping at the first error. -/
def execStmts (st : EvalState) : List Stmt → Except EvalError EvalState
  | [] => .ok st
  | s :: rest =>
      match execStmt st s with
      | .error err => .error err
      | .ok st1 => execStmts st1 rest

end

/-- Modelled from the spec: the outcome of evaluating one build file —
ordered rule list, ordered diagnostics, and provenance (file-dependency
paths and environment reads). -/
structure ProcessResult where
  rules : List Rule
  diagnostics : List Diagnostic
  includedDeps : List String
  usedEnv : List (String × Option String)
deriving Repr, DecidableEq

/-- The fresh per-file state: empty scope over the sandbox builtins,
empty accumulators, the caller-supplied process environment and scripted
glob service. -/
def initState (root dir : String) (builtins : Env) (procEnv : List (String × String))
    (globResponses : List GlobResponse) : EvalState :=
  { root := root, dir := dir, builtins := builtins, globals := [], rules := [],
    diagnostics := [], deps := [], usedEnv := [], procEnv := procEnv,
    globResponses := globResponses }

/-- Modelled from the spec: `process` — establish a fresh Build
Environment, apply the evaluator-wide implicit includes first (each via
the include mechanism, before any line of the body), then execute the
file body; on success collect rules, diagnostics and provenance. -/
def process (root dir : String) (builtins : Env) (procEnv : List (String × String))
    (globResponses : List GlobResponse)
    (defaultIncludes : List (String × List Stmt)) (body : List Stmt) :
    Except EvalError ProcessResult :=
  match execStmts (initState root dir builtins procEnv globResponses)
      (defaultIncludes.map (fun m => Stmt.includeDefs m.1 m.2) ++ body) with
  | .error e => .error e
  | .ok st =>
      .ok { rules := st.rules, diagnostics := st.diagnostics,
            includedDeps := st.deps, usedEnv := st.usedEnv }

/-- Modelled from the spec: wire-format values emitted by the Result
Encoder. -/
inductive JValue where
  | jnull
  | jbool (b : Bool)
  | jint (n : Int)
  | jstr (s : String)
  | jstrlist (ss : List String)
  | jpairs (ps : List (String × String))
deriving Repr, DecidableEq

/-- Modelled from the spec: encoding of a single attribute value; opaque
host objects and callables cannot be represented in the output format. -/
def encodeValue : Value → Option JValue
  | .int n => some (.jint n)
  | .str s => some (.jstr s)
  | .bool b => some (.jbool b)
  | .strlist ss => some (.jstrlist ss)
  | .pairlist ps => some (.jpairs ps)
  | .pynone => some .jnull
  | .func _ => Option.none
  | .pyobject => Option.none

/-- Modelled from the spec: encoding of one rule record — attributes
whose value is the absent/unset sentinel are dropped entirely rather than
emitted as null; an unrepresentable attribute value is an encoding
error. -/
def encodeRule : Rule → Except String (List (String × JValue))
  | [] => .ok []
  | (k, v) :: rest =>
      if v = Value.pynone then encodeRule rest
      else
        match encodeValue v with
        | some j =>
            match encodeRule rest with
            | .error m => .error m
            | .ok er => .ok ((k, j) :: er)
        | none => .error ("value of attribute " ++ k ++ " is not JSON serializable")

/-- Encode every rule of the rule list, failing on the first rule with an
unrepresentable attribute. -/
def encodeRules : List Rule → Except String (List (List (String × JValue)))
  | [] => .ok []
  | r :: rest =>
      match encodeRule r with
      | .error m => .error m
      | .ok er =>
          match encodeRules rest with
          | .error m => .error m
          | .ok ers => .ok (er :: ers)

/-- Modelled from the spec: the single structured output payload — rule
objects, ordered diagnostics, and provenance under reserved keys. -/
structure Payload where
  values : List (List (String × JValue))
  diagnostics : List Diagnostic
  includedDeps : List String
  usedEnv : List (String × Option String)
deriving Repr, DecidableEq

/-- A fatal diagnostic with source `parse`. -/
def fatalParseDiag (m : String) : Diagnostic :=
  { level := "fatal", source := "parse", message := m }

/-- Modelled from the spec: the Result Encoder — on an encoding failure
it still emits a well-formed payload whose rule list is empty and whose
diagnostics hold a single fatal diagnostic with source `parse` describing
the failure. -/
def encodeResult (res : ProcessResult) : Payload :=
  match encodeRules res.rules with
  | .ok vs =>
      { values := vs, diagnostics := res.diagnostics,
        includedDeps := res.includedDeps, usedEnv := res.usedEnv }
  | .error m =>
      { values := [], diagnostics := [fatalParseDiag m],
        includedDeps := res.includedDeps, usedEnv := res.usedEnv }

/-- Modelled from the spec: the top-level entry point — evaluate one
build file and always produce an output payload: a fatal evaluation error
becomes a payload with no rules and a single fatal `parse` diagnostic,
and an encoding failure is handled by the Result Encoder likewise. -/
def processWithDiagnostics (root dir : String) (builtins : Env)
    (procEnv : List (String × String)) (globResponses : List GlobResponse)
    (defaultIncludes : List (String × List Stmt)) (body : List Stmt) : Payload :=
  match process root dir builtins procEnv globResponses defaultIncludes body with
  | .ok res => encodeResult res
  | .error e =>
      { values := [], diagnostics := [fatalParseDiag (errorMessage e)],
        includedDeps := [], usedEnv := [] }


/-! ## Helper lemmas -/

theorem lookup_append_of_lookup_none {α β : Type} [BEq α] (l1 l2 : List (α × β)) (a : α)
    (h : List.lookup a l1 = Option.none) :
    List.lookup a (l1 ++ l2) = List.lookup a l2 := by
  induction l1 with
  | nil => rfl
  | cons p rest ih =>
      simp only [List.lookup, List.cons_append] at h ⊢
      cases hpa : (a == p.1) with
      | true => simp [hpa] at h
      | false =>
          simp only [hpa] at h ⊢
          exact ih h

theorem lookup_filterMap_export_none (env : Env) (ns : List String) (x : String)
    (h : x ∉ ns) :
    List.lookup x (ns.filterMap (fun n =>
      match List.lookup n env with
      | some v => some (n, v)
      | none => Option.none)) = Option.none := by
  induction ns with
  | nil => rfl
  | cons n rest ih =>
      have hxn : x ≠ n := by
        intro hcontra
        exact h (by simp [hcontra])
      have hxrest : x ∉ rest := fun hc => h (List.mem_cons_of_mem _ hc)
      have hbeq : (x == n) = false := beq_eq_false_iff_ne.mpr hxn
      simp only [List.filterMap_cons]
      cases hlk : List.lookup n env with
      | none => exact ih hxrest
      | some v =>
          simp only [List.lookup, hbeq]
          exact ih hxrest

theorem lookup_exportBindings_of_not_exported (env : Env) (x : String)
    (h : x ∉ exportedNames env) :
    List.lookup x (exportBindings env) = Option.none := by
  unfold exportBindings
  exact lookup_filterMap_export_none env (exportedNames env) x h

theorem evalExpr_preserves_builtins (st : EvalState) (e : Expr) (v : Value) (st' : EvalState)
    (h : evalExpr st e = .ok (v, st')) : st'.builtins = st.builtins := by
  cases e with
  | lit w =>
      simp only [evalExpr, Except.ok.injEq, Prod.mk.injEq] at h
      obtain ⟨h1, h2⟩ := h
      subst h2
      rfl
  | var n =>
      cases hl : lookupName st n with
      | some w =>
          simp only [evalExpr, hl, Except.ok.injEq, Prod.mk.injEq] at h
          obtain ⟨h1, h2⟩ := h
          subst h2
          rfl
      | none => simp [evalExpr, hl] at h
  | callVar n =>
      cases hl : lookupName st n with
      | some w =>
          simp only [evalExpr, hl] at h
          cases w with
          | func tag =>
              simp only [applyCall, applyFunc] at h
              by_cases ht : tag = "raise"
              · simp [ht] at h
              · simp only [if_neg ht, Except.ok.injEq, Prod.mk.injEq] at h
                obtain ⟨h1, h2⟩ := h
                subst h2
                rfl
          | int m => simp [applyCall] at h
          | str s => simp [applyCall] at h
          | bool b => simp [applyCall] at h
          | strlist ss => simp [applyCall] at h
          | pairlist ps => simp [applyCall] at h
          | pynone => simp [applyCall] at h
          | pyobject => simp [applyCall] at h
      | none => simp [evalExpr, hl] at h
  | glob pats exclude excludes =>
      simp only [evalExpr] at h
      split at h
      · exact absurd h (by simp)
      · cases hg : st.globResponses with
        | nil => rw [hg] at h; exact absurd h (by simp)
        | cons r rest =>
            rw [hg] at h
            simp only [Except.ok.injEq, Prod.mk.injEq] at h
            obtain ⟨h1, h2⟩ := h
            subst h2
            rfl
  | getenv n dflt =>
      simp only [evalExpr] at h
      cases hl : List.lookup n st.procEnv with
      | some s =>
          rw [hl] at h
          simp only [Except.ok.injEq, Prod.mk.injEq] at h
          obtain ⟨h1, h2⟩ := h
          subst h2
          rfl
      | none =>
          rw [hl] at h
          simp only [Except.ok.injEq, Prod.mk.injEq] at h
          obtain ⟨h1, h2⟩ := h
          subst h2
          rfl
  | envContains n =>
      simp only [evalExpr, Except.ok.injEq, Prod.mk.injEq] at h
      obtain ⟨h1, h2⟩ := h
      subst h2
      rfl
  | envItems =>
      simp only [evalExpr, Except.ok.injEq, Prod.mk.injEq] at h
      obtain ⟨h1, h2⟩ := h
      subst h2
      rfl

theorem evalAttrs_preserves_builtins (st : EvalState) (l : List (String × Expr))
    (kvs : List (String × Value)) (st' : EvalState)
    (h : evalAttrs st l = .ok (kvs, st')) : st'.builtins = st.builtins := by
  induction l generalizing st kvs with
  | nil =>
      simp only [evalAttrs, Except.ok.injEq, Prod.mk.injEq] at h
      obtain ⟨h1, h2⟩ := h
      subst h2
      rfl
  | cons p rest ih =>
      obtain ⟨k, e⟩ := p
      cases he : evalExpr st e with
      | error err => simp [evalAttrs, he] at h
      | ok q =>
          obtain ⟨v, st1⟩ := q
          cases ha : evalAttrs st1 rest with
          | error err => simp [evalAttrs, he, ha] at h
          | ok q2 =>
              obtain ⟨kvs2, st2⟩ := q2
              simp only [evalAttrs, he, ha, Except.ok.injEq, Prod.mk.injEq] at h
              obtain ⟨h1, h2⟩ := h
              subst h2
              calc st2.builtins = st1.builtins := ih st1 kvs2 ha
                _ = st.builtins := evalExpr_preserves_builtins st e v st1 he

mutual

theorem execStmt_preserves_builtins (st : EvalState) (s : Stmt) (st' : EvalState)
    (h : execStmt st s = .ok st') : st'.builtins = st.builtins := by
  cases s with
  | assign n e =>
      cases he : evalExpr st e with
      | error err => simp [execStmt, he] at h
      | ok p =>
          obtain ⟨v, st1⟩ := p
          simp only [execStmt, he, Except.ok.injEq] at h
          subst h
          exact evalExpr_preserves_builtins st e v st1 he
  | exprStmt e =>
      cases he : evalExpr st e with
      | error err => simp [execStmt, he] at h
      | ok p =>
          obtain ⟨v, st1⟩ := p
          simp only [execStmt, he, Except.ok.injEq] at h
          subst h
          exact evalExpr_preserves_builtins st e v st1 he
  | includeDefs path body =>
      cases hm : execStmts { st with globals := [], dir := dirOf path } body with
      | error err => simp [execStmt, hm] at h
      | ok ms =>
          simp only [execStmt, hm, Except.ok.injEq] at h
          subst h
          exact execStmts_preserves_builtins { st with globals := [], dir := dirOf path } body ms hm
  | load ref body symbols =>
      cases hres : resolveLoad ref st.dir st.root with
      | error err => simp [execStmt, hres] at h
      | ok path =>
          cases hm : execStmts { st with globals := [], dir := dirOf path } body with
          | error err => simp [execStmt, hres, hm] at h
          | ok ms =>
              cases hext : extractSymbols path ms.globals symbols with
              | error err => simp [execStmt, hres, hm, hext] at h
              | ok binds =>
                  simp only [execStmt, hres, hm, hext, Except.ok.injEq] at h
                  subst h
                  exact execStmts_preserves_builtins { st with globals := [], dir := dirOf path } body ms hm
  | addBuildFileDep path =>
      simp only [execStmt, Except.ok.injEq] at h
      subst h
      rfl
  | readFile path =>
      by_cases hp : path ∈ st.deps
      · simp only [execStmt, if_pos hp, Except.ok.injEq] at h
        subst h
        rfl
      · simp only [execStmt, if_neg hp, Except.ok.injEq] at h
        subst h
        rfl
  | addRule ruleType attrs =>
      cases ha : evalAttrs st attrs with
      | error err => simp [execStmt, ha] at h
      | ok p =>
          obtain ⟨kvs, st1⟩ := p
          simp only [execStmt, ha, Except.ok.injEq] at h
          subst h
          exact evalAttrs_preserves_builtins st attrs kvs st1 ha

theorem execStmts_preserves_builtins (st : EvalState) (l : List Stmt) (st' : EvalState)
    (h : execStmts st l = .ok st') : st'.builtins = st.builtins := by
  cases l with
  | nil =>
      simp only [execStmts, Except.ok.injEq] at h
      subst h
      rfl
  | cons s rest =>
      cases hs : execStmt st s with
      | error err => simp [execStmts, hs] at h
      | ok st1 =>
          simp only [execStmts, hs] at h
          calc st'.builtins = st1.builtins := execStmts_preserves_builtins st1 rest st' h
            _ = st.builtins := execStmt_preserves_builtins st s st1 hs

end


/-! ## Encoder lemmas -/

theorem encodeRule_error_of_bad_attr (r : Rule) (k : String) (v : Value)
    (hkv : (k, v) ∈ r) (hvn : v ≠ Value.pynone) (henc : encodeValue v = Option.none) :
    ∃ m, encodeRule r = .error m := by
  induction r with
  | nil => exact absurd hkv (List.not_mem_nil _)
  | cons kv rest ih =>
      obtain ⟨k2, v2⟩ := kv
      by_cases hv2 : v2 = Value.pynone
      · subst hv2
        have hmem : (k, v) ∈ rest := by
          rcases List.mem_cons.mp hkv with heq | hmem
          · exact absurd (Prod.mk.injEq _ _ _ _ ▸ heq) (by
              intro hcontra
              exact hvn hcontra.2)
          · exact hmem
        obtain ⟨m, hm⟩ := ih hmem
        exact ⟨m, by simp [encodeRule, hm]⟩
      · cases hev : encodeValue v2 with
        | none =>
            exact ⟨"value of attribute " ++ k2 ++ " is not JSON serializable",
              by simp [encodeRule, hv2, hev]⟩
        | some j =>
            have hmem : (k, v) ∈ rest := by
              rcases List.mem_cons.mp hkv with heq | hmem
              · obtain ⟨hk, hv⟩ := Prod.mk.injEq _ _ _ _ ▸ heq
                subst hv
                exact absurd hev (by simp [henc])
              · exact hmem
            obtain ⟨m, hm⟩ := ih hmem
            exact ⟨m, by simp [encodeRule, hv2, hev, hm]⟩

theorem encodeRules_error_of_bad_rule (rules : List Rule) (r : Rule) (m : String)
    (hr : r ∈ rules) (hm : encodeRule r = .error m) :
    ∃ m2, encodeRules rules = .error m2 := by
  induction rules with
  | nil => exact absurd hr (List.not_mem_nil _)
  | cons r2 rest ih =>
      rcases List.mem_cons.mp hr with heq | hmem
      · subst heq
        exact ⟨m, by simp [encodeRules, hm]⟩
      · cases hr2 : encodeRule r2 with
        | error m3 => exact ⟨m3, by simp [encodeRules, hr2]⟩
        | ok er2 =>
            obtain ⟨m2, hm2⟩ := ih hmem
            exact ⟨m2, by simp [encodeRules, hr2, hm2]⟩

/-- A minimal concrete evaluator configuration used by the witnesses. -/
def sampleState : EvalState :=
  { root := "/r", dir := "/r", builtins := [], globals := [], rules := [],
    diagnostics := [], deps := [], usedEnv := [], procEnv := [],
    globResponses := [] }

/-! ## Claim theorems -/

/-- C4: if a declared rule carries an attribute value that cannot be
represented in the output format, the Result Encoder still emits a
well-formed payload whose rule list is empty and whose diagnostics are a
single fatal diagnostic with source `parse` describing the failure — the
top-level entry point is total and never ends without producing an output
payload. -/
theorem encoding_failure_emits_payload
    (root dir : String) (builtins : Env) (procEnv : List (String × String))
    (rs : List GlobResponse) (defs : List (String × List Stmt)) (body : List Stmt)
    (res : ProcessResult) (r : Rule) (k : String) (v : Value)
    (hp : process root dir builtins procEnv rs defs body = .ok res)
    (hr : r ∈ res.rules) (hkv : (k, v) ∈ r)
    (hvn : v ≠ Value.pynone) (henc : encodeValue v = Option.none) :
    ∃ m, processWithDiagnostics root dir builtins procEnv rs defs body =
      { values := [], diagnostics := [fatalParseDiag m],
        includedDeps := res.includedDeps, usedEnv := res.usedEnv } ∧
      (fatalParseDiag m).level = "fatal" ∧ (fatalParseDiag m).source = "parse" := by
  obtain ⟨m0, hm0⟩ := encodeRule_error_of_bad_attr r k v hkv hvn henc
  obtain ⟨m, hm⟩ := encodeRules_error_of_bad_rule res.rules r m0 hr hm0
  refine ⟨m, ?_, rfl, rfl⟩
  simp only [processWithDiagnostics, hp, encodeResult, hm]

theorem encoding_failure_emits_payload_witness :
    ∃ m, processWithDiagnostics "/r" "/r" [] [] []
        [] [Stmt.addRule "foo_rule" [("name", Expr.lit (Value.str "foo")),
              ("srcs", Expr.lit Value.pyobject)]] =
      { values := [], diagnostics := [fatalParseDiag m],
        includedDeps := [], usedEnv := [] } ∧
      (fatalParseDiag m).level = "fatal" ∧ (fatalParseDiag m).source = "parse" :=
  encoding_failure_emits_payload "/r" "/r" [] [] [] []
    [Stmt.addRule "foo_rule" [("name", Expr.lit (Value.str "foo")),
      ("srcs", Expr.lit Value.pyobject)]]
    { rules := [[("buck.type", Value.str "foo_rule"), ("name", Value.str "foo"),
        ("srcs", Value.pyobject)]],
      diagnostics := [], includedDeps := [], usedEnv := [] }
    [("buck.type", Value.str "foo_rule"), ("name", Value.str "foo"),
      ("srcs", Value.pyobject)]
    "srcs" Value.pyobject rfl (by simp) (by simp) (by simp) rfl

/-- C5: the Result Encoder omits attributes whose value is the
absent/unset sentinel entirely — the emitted keys of a rule object are
exactly the keys of its non-absent attributes, in order, so an absent
attribute's key is not present at all while set attributes are
emitted. -/
theorem absent_attributes_omitted (r : Rule) (er : List (String × JValue))
    (h : encodeRule r = .ok er) :
    er.map Prod.fst =
      (r.filter (fun kv => kv.2 ≠ Value.pynone)).map Prod.fst := by
  induction r generalizing er with
  | nil =>
      simp only [encodeRule, Except.ok.injEq] at h
      subst h
      rfl
  | cons kv rest ih =>
      obtain ⟨k, v⟩ := kv
      by_cases hv : v = Value.pynone
      · subst hv
        simp only [encodeRule, if_pos rfl] at h
        rw [ih er h]
        simp [List.filter_cons]
      · cases hev : encodeValue v with
        | none => simp [encodeRule, hv, hev] at h
        | some j =>
            cases hr : encodeRule rest with
            | error m => simp [encodeRule, hv, hev, hr] at h
            | ok er2 =>
                simp only [encodeRule] at h
                rw [if_neg hv] at h
                simp only [hev, hr, Except.ok.injEq] at h
                subst h
                simp only [List.map_cons, List.filter_cons]
                rw [if_pos (by simp [hv]), List.map_cons, ih er2 hr]

theorem absent_attributes_omitted_witness :
    encodeRule [("buck.type", Value.str "foo_rule"), ("name", Value.str "foo"),
        ("some_optional", Value.pynone), ("srcs", Value.strlist ["Foo.java"])] =
      .ok [("buck.type", JValue.jstr "foo_rule"), ("name", JValue.jstr "foo"),
        ("srcs", JValue.jstrlist ["Foo.java"])] ∧
    [("buck.type", JValue.jstr "foo_rule"), ("name", JValue.jstr "foo"),
        ("srcs", JValue.jstrlist ["Foo.java"])].map Prod.fst =
      ([("buck.type", Value.str "foo_rule"), ("name", Value.str "foo"),
        ("some_optional", Value.pynone), ("srcs", Value.strlist ["Foo.java"])].filter
          (fun kv => kv.2 ≠ Value.pynone)).map Prod.fst :=
  ⟨rfl, absent_attributes_omitted _ _ rfl⟩


/-- C9: a glob call passing both the `exclude` and the `excludes` keyword
argument at once makes evaluation of the build file fail with an error
whose message states that mixing them is not allowed and shows the single
merged `excludes` list to use instead; the two argument lists are never
silently merged into a successful query. -/
theorem glob_exclude_excludes_mix_fails
    (st : EvalState) (pats exclude excludes : List String) (rest : List Stmt)
    (hx : exclude ≠ []) (hxs : excludes ≠ []) :
    execStmts st (Stmt.exprStmt (Expr.glob pats exclude excludes) :: rest) =
      .error (.assertionFailure (globMixMessage exclude excludes)) ∧
    globMixMessage exclude excludes =
      "Mixing \x27exclude\x27 and \x27excludes\x27 attributes is not allowed. " ++
      "Please replace your exclude and excludes arguments with a single " ++
      "\x27excludes = " ++ pyListRepr (exclude ++ excludes) ++ "\x27." := by
  have hc : exclude ≠ [] ∧ excludes ≠ [] := ⟨hx, hxs⟩
  exact ⟨by simp [execStmts, execStmt, evalExpr, hc], rfl⟩

theorem glob_exclude_excludes_mix_fails_witness :
    execStmts sampleState [Stmt.exprStmt (Expr.glob ["*.java"] ["e1"] ["e2"])] =
      .error (.assertionFailure (globMixMessage ["e1"] ["e2"])) ∧
    globMixMessage ["e1"] ["e2"] =
      "Mixing \x27exclude\x27 and \x27excludes\x27 attributes is not allowed. " ++
      "Please replace your exclude and excludes arguments with a single " ++
      "\x27excludes = [\x27e1\x27, \x27e2\x27]\x27." :=
  ⟨(glob_exclude_excludes_mix_fails sampleState ["*.java"] ["e1"] ["e2"] []
      (by decide) (by decide)).1, rfl⟩

/-- C6: a read during evaluation of a file that was not previously
registered as a dependency emits exactly one non-fatal warning diagnostic
with source `sandbox` whose message describes the untracked path and
instructs the author to register it via `add_build_file_dep`, and
evaluation continues with the rest of the build file. -/
theorem untracked_read_warns_and_continues
    (st : EvalState) (p : String) (rest : List Stmt)
    (hp : p ∉ st.deps) :
    execStmts st (Stmt.readFile p :: rest) =
      execStmts { st with diagnostics := st.diagnostics ++ [accessTrackingDiag p] } rest ∧
    (accessTrackingDiag p).level = "warning" ∧
    (accessTrackingDiag p).source = "sandbox" ∧
    (accessTrackingDiag p).message = accessMessage p := by
  refine ⟨?_, rfl, rfl, rfl⟩
  simp [execStmts, execStmt, hp]

theorem untracked_read_warns_and_continues_witness :
    execStmts sampleState [Stmt.readFile "/r/foo.py"] =
      execStmts { sampleState with diagnostics :=
        sampleState.diagnostics ++ [accessTrackingDiag "/r/foo.py"] } [] ∧
    (accessTrackingDiag "/r/foo.py").level = "warning" ∧
    (accessTrackingDiag "/r/foo.py").source = "sandbox" ∧
    (accessTrackingDiag "/r/foo.py").message = accessMessage "/r/foo.py" :=
  untracked_read_warns_and_continues sampleState "/r/foo.py" [] (by decide)

/-- C7: a relative load reference pointing into a subdirectory of the
requesting file's directory fails with `InvalidReferenceError`, while a
relative reference to a sibling file in exactly the same directory
resolves to that sibling's absolute path and the load succeeds whenever
the referenced module evaluates and the requested symbols extract. -/
theorem relative_load_boundary
    (st : EvalState) (name : String) (body : List Stmt)
    (symbols : List (String × String)) :
    ('/' ∈ name.data →
      execStmt st (Stmt.load (LoadRef.relative name) body symbols) =
        .error (.invalidReference relativeLoadMessage)) ∧
    ('/' ∉ name.data →
      resolveLoad (LoadRef.relative name) st.dir st.root = .ok (st.dir ++ "/" ++ name) ∧
      ∀ ms binds,
        execStmts { st with globals := [], dir := dirOf (st.dir ++ "/" ++ name) } body = .ok ms →
        extractSymbols (st.dir ++ "/" ++ name) ms.globals symbols = .ok binds →
        execStmt st (Stmt.load (LoadRef.relative name) body symbols) =
          .ok { ms with globals := binds ++ st.globals, dir := st.dir }) := by
  constructor
  · intro h
    simp [execStmt, resolveLoad, h]
  · intro h
    refine ⟨by simp [resolveLoad, h], ?_⟩
    intro ms binds hm hext
    simp [execStmt, resolveLoad, h, hm, hext]


theorem relative_load_boundary_witness :
    execStmt sampleState (Stmt.load (LoadRef.relative "foo/ext.bzl") [] []) =
      .error (.invalidReference relativeLoadMessage) ∧
    resolveLoad (LoadRef.relative "ext.bzl") "/r" "/r" = .ok "/r/ext.bzl" ∧
    execStmt sampleState
        (Stmt.load (LoadRef.relative "ext.bzl")
          [Stmt.assign "foo" (Expr.lit (Value.str "bar"))] [("foo", "foo")]) =
      .ok { sampleState with globals := [("foo", Value.str "bar")] } :=
  ⟨(relative_load_boundary sampleState "foo/ext.bzl" [] []).1 (by decide),
   ((relative_load_boundary sampleState "ext.bzl"
      [Stmt.assign "foo" (Expr.lit (Value.str "bar"))] [("foo", "foo")]).2 (by decide)).1,
   ((relative_load_boundary sampleState "ext.bzl"
      [Stmt.assign "foo" (Expr.lit (Value.str "bar"))] [("foo", "foo")]).2 (by decide)).2
      { sampleState with globals := [("foo", Value.str "bar")] }
      [("foo", Value.str "bar")] rfl rfl⟩

theorem lookup_append_of_lookup_some {α β : Type} [BEq α] (l1 l2 : List (α × β)) (a : α)
    (b : β) (h : List.lookup a l1 = some b) :
    List.lookup a (l1 ++ l2) = some b := by
  induction l1 with
  | nil => simp [List.lookup] at h
  | cons p rest ih =>
      simp only [List.lookup, List.cons_append] at h ⊢
      cases hpa : (a == p.1) with
      | true =>
          simp only [hpa] at h ⊢
          exact h
      | false =>
          simp only [hpa] at h ⊢
          exact ih h

theorem lookup_map_pair_some (l : List (String × String)) (k : String)
    (hk : k ∈ l.map Prod.fst) :
    List.lookup k (l.map (fun p => (p.1, some p.2))) = some (List.lookup k l) := by
  induction l with
  | nil => simp at hk
  | cons p rest ih =>
      obtain ⟨a, b⟩ := p
      by_cases hka : k = a
      · subst hka
        simp [List.lookup]
      · have hbeq : (k == a) = false := beq_eq_false_iff_ne.mpr hka
        have hmem : k ∈ rest.map Prod.fst := by
          rcases List.mem_map.mp hk with ⟨q, hq, hfst⟩
          rcases List.mem_cons.mp hq with heq | hq2
          · exact absurd (heq ▸ hfst).symm hka
          · exact List.mem_map.mpr ⟨q, hq2, hfst⟩
        simp only [List.map_cons, List.lookup, hbeq]
        exact ih hmem

/-- C8: every environment-variable read performed by a file body — a
lookup by name with or without a default, a membership test, or a bulk
enumeration — records the variable's name in the environment-provenance
mapping together with the observed value, or with the absent marker
(`Option.none`) when the variable is unset in the process environment;
the recording happens whether or not the variable was set. -/
theorem env_reads_recorded (st : EvalState) (n : String) (dflt : Option Value) :
    (∀ v st2, evalExpr st (Expr.getenv n dflt) = .ok (v, st2) →
      List.lookup n st2.usedEnv = some (List.lookup n st.procEnv)) ∧
    (∀ v st2, evalExpr st (Expr.envContains n) = .ok (v, st2) →
      List.lookup n st2.usedEnv = some (List.lookup n st.procEnv)) ∧
    (∀ v st2 k, evalExpr st Expr.envItems = .ok (v, st2) → k ∈ st.procEnv.map Prod.fst →
      List.lookup k st2.usedEnv = some (List.lookup k st.procEnv)) := by
  refine ⟨?_, ?_, ?_⟩
  · intro v st2 h
    simp only [evalExpr] at h
    cases hl : List.lookup n st.procEnv with
    | some s =>
        rw [hl] at h
        simp only [Except.ok.injEq, Prod.mk.injEq] at h
        obtain ⟨h1, h2⟩ := h
        subst h2
        simp [List.lookup]
    | none =>
        rw [hl] at h
        simp only [Except.ok.injEq, Prod.mk.injEq] at h
        obtain ⟨h1, h2⟩ := h
        subst h2
        simp [List.lookup]
  · intro v st2 h
    simp only [evalExpr, Except.ok.injEq, Prod.mk.injEq] at h
    obtain ⟨h1, h2⟩ := h
    subst h2
    simp [List.lookup]
  · intro v st2 k h hk
    simp only [evalExpr, Except.ok.injEq, Prod.mk.injEq] at h
    obtain ⟨h1, h2⟩ := h
    subst h2
    exact lookup_append_of_lookup_some _ _ _ _ (lookup_map_pair_some st.procEnv k hk)

/-- A process environment used by the environment-read witness. -/
def envSt : EvalState :=
  { sampleState with procEnv := [("TEST1", "foo"), ("TEST4", "")] }

theorem env_reads_recorded_witness :
    (∀ v st2, evalExpr envSt (Expr.getenv "TEST2" Option.none) = .ok (v, st2) →
      List.lookup "TEST2" st2.usedEnv = some (List.lookup "TEST2" envSt.procEnv)) ∧
    (∀ v st2, evalExpr envSt (Expr.envContains "TEST2") = .ok (v, st2) →
      List.lookup "TEST2" st2.usedEnv = some (List.lookup "TEST2" envSt.procEnv)) ∧
    (∀ v st2 k, evalExpr envSt Expr.envItems = .ok (v, st2) → k ∈ envSt.procEnv.map Prod.fst →
      List.lookup k st2.usedEnv = some (List.lookup k envSt.procEnv)) :=
  env_reads_recorded envSt "TEST2" Option.none

/-- The module body used by the export-whitelist witness: it declares an
export whitelist naming only `X`, then binds both `X` and `Y`. -/
def c2Body : List Stmt :=
  [Stmt.assign "__all__" (Expr.lit (Value.strlist ["X"])),
   Stmt.assign "X" (Expr.lit (Value.int 1)),
   Stmt.assign "Y" (Expr.lit (Value.int 2))]

/-- The evaluated module scope of `c2Body`. -/
def c2Ms : EvalState :=
  { sampleState with globals :=
      [("Y", Value.int 2), ("X", Value.int 1), ("__all__", Value.strlist ["X"])] }

/-- C2: for a module that declares an export whitelist, loading it and
requesting a name that is bound in the module but absent from the
whitelist fails with `SymbolNotFoundError` carrying the module's absolute
source path and the missing symbol (and its message names both), while
requesting a whitelisted name succeeds and binds it in the importer's
scope. -/
theorem export_whitelist_respected
    (st : EvalState) (ref : LoadRef) (body : List Stmt)
    (path : String) (ms : EvalState) (wl : List String)
    (x y : String) (vx vy : Value)
    (hres : resolveLoad ref st.dir st.root = .ok path)
    (hmod : execStmts { st with globals := [], dir := dirOf path } body = .ok ms)
    (hwl : List.lookup "__all__" ms.globals = some (Value.strlist wl))
    (_hy : List.lookup y ms.globals = some vy)
    (hynot : y ∉ wl)
    (hx : x ∈ wl)
    (hxval : List.lookup x ms.globals = some vx) :
    execStmt st (Stmt.load ref body [(y, y)]) = .error (.symbolNotFound path y) ∧
    errorMessage (.symbolNotFound path y) = "\"" ++ y ++ "\" is not defined in " ++ path ∧
    execStmt st (Stmt.load ref body [(x, x)]) =
      .ok { ms with globals := (x, vx) :: st.globals, dir := st.dir } ∧
    List.lookup x ((x, vx) :: st.globals : Env) = some vx := by
  have hexp : exportedNames ms.globals = wl := by
    unfold exportedNames
    rw [hwl]
  have hymem : y ∉ exportedNames ms.globals := hexp ▸ hynot
  have hxmem : x ∈ exportedNames ms.globals := hexp ▸ hx
  have hyext : extractSymbols path ms.globals [(y, y)] =
      .error (.symbolNotFound path y) := by
    simp [extractSymbols, hymem]
  have hxext : extractSymbols path ms.globals [(x, x)] = .ok [(x, vx)] := by
    simp [extractSymbols, hxmem, hxval]
  refine ⟨?_, rfl, ?_, by simp [List.lookup]⟩
  · simp [execStmt, hres, hmod, hyext]
  · simp [execStmt, hres, hmod, hxext]

theorem export_whitelist_respected_witness :
    execStmt sampleState (Stmt.load (LoadRef.relative "DEFS") c2Body [("Y", "Y")]) =
      .error (.symbolNotFound "/r/DEFS" "Y") ∧
    errorMessage (.symbolNotFound "/r/DEFS" "Y") = "\"Y\" is not defined in /r/DEFS" ∧
    execStmt sampleState (Stmt.load (LoadRef.relative "DEFS") c2Body [("X", "X")]) =
      .ok { c2Ms with globals := (("X", Value.int 1) :: sampleState.globals : Env), dir := sampleState.dir } ∧
    List.lookup "X" (("X", Value.int 1) :: sampleState.globals : Env) =
      some (Value.int 1) :=
  export_whitelist_respected sampleState (LoadRef.relative "DEFS") c2Body
    "/r/DEFS" c2Ms ["X"] "X" "Y" (Value.int 1) (Value.int 2)
    rfl rfl rfl rfl (by decide) (by decide) rfl

/-- C10: applying an include never clobbers an existing binding for a
name the included module does not export: after the include the binding
still holds the overriding value, and a subsequent call of that name
dispatches on the preserved override rather than on the original
builtin. -/
theorem include_does_not_clobber_overrides
    (st : EvalState) (path : String) (body : List Stmt)
    (n : String) (v : Value) (ms : EvalState)
    (hn : List.lookup n st.globals = some v)
    (hmod : execStmts { st with globals := [], dir := dirOf path } body = .ok ms)
    (hnex : n ∉ exportedNames ms.globals) :
    ∃ st2, execStmt st (Stmt.includeDefs path body) = .ok st2 ∧
      List.lookup n st2.globals = some v ∧
      evalExpr st2 (Expr.callVar n) = applyCall v st2 := by
  have h0 := lookup_exportBindings_of_not_exported ms.globals n hnex
  have hlk : List.lookup n (exportBindings ms.globals ++ st.globals) = some v := by
    rw [lookup_append_of_lookup_none _ _ _ h0]
    exact hn
  refine ⟨{ ms with globals := exportBindings ms.globals ++ st.globals, dir := st.dir },
    ?_, hlk, ?_⟩
  · simp [execStmt, hmod]
  · simp [evalExpr, lookupName, hlk]

/-- The state of the clobbering witness: the build file has overridden
the builtin `get_base_path` with a callable that raises. -/
def c10St : EvalState :=
  { sampleState with
      builtins := [("get_base_path", Value.func "get_base_path")],
      globals := [("get_base_path", Value.func "raise")] }

theorem include_does_not_clobber_overrides_witness :
    ∃ st2, execStmt c10St (Stmt.includeDefs "/r/OTHER_DEFS" []) = .ok st2 ∧
      List.lookup "get_base_path" st2.globals = some (Value.func "raise") ∧
      evalExpr st2 (Expr.callVar "get_base_path") = applyCall (Value.func "raise") st2 :=
  include_does_not_clobber_overrides c10St "/r/OTHER_DEFS" []
    "get_base_path" (Value.func "raise") { c10St with globals := [] }
    rfl rfl (by decide)

/-- The diagnostics contributed by one glob response: its optional
warning as a single `glob-provider` warning diagnostic. -/
def warnDiags (r : GlobResponse) : List Diagnostic :=
  match r.warning with
  | some w => [globWarningDiag w]
  | none => []

/-- The state after one successful glob query consuming response `r`. -/
def globStep (st : EvalState) (r : GlobResponse) (rs : List GlobResponse) : EvalState :=
  { st with globResponses := rs, diagnostics := st.diagnostics ++ warnDiags r }

/-- C3: while evaluating one build file, glob queries consume the glob
service's responses in order, and each response that carries a warning
string contributes exactly one diagnostic with source `glob-provider` and
level `warning` carrying that string as its message; the diagnostics
appear in the same order the queries were made. -/
theorem glob_warning_diagnostics_in_order
    (patsList : List (List String)) (st : EvalState)
    (h : patsList.length ≤ st.globResponses.length) :
    ∃ st2,
      execStmts st (patsList.map (fun pats => Stmt.exprStmt (Expr.glob pats [] []))) =
        .ok st2 ∧
      st2.diagnostics = st.diagnostics ++
        ((st.globResponses.take patsList.length).filterMap
          (fun r => r.warning.map globWarningDiag)) ∧
      st2.globResponses = st.globResponses.drop patsList.length ∧
      ∀ d ∈ (st.globResponses.take patsList.length).filterMap
          (fun r => r.warning.map globWarningDiag),
        d.level = "warning" ∧ d.source = "glob-provider" := by
  induction patsList generalizing st with
  | nil => exact ⟨st, by simp [execStmts], by simp, by simp, by simp⟩
  | cons pats rest ih =>
      cases hg : st.globResponses with
      | nil =>
          rw [hg] at h
          simp at h
      | cons r rs =>
          have hstep : execStmt st (Stmt.exprStmt (Expr.glob pats [] [])) =
              .ok (globStep st r rs) := by
            simp [execStmt, evalExpr, hg, globStep, warnDiags]
          have hlen : rest.length ≤ (globStep st r rs).globResponses.length := by
            rw [hg] at h
            simpa [globStep] using h
          obtain ⟨st2, hexec, hdiag, hresp, htags⟩ := ih (globStep st r rs) hlen
          simp only [globStep, warnDiags] at hdiag hresp htags
          refine ⟨st2, ?_, ?_, ?_, ?_⟩
          · simp only [List.map_cons, execStmts, hstep]
            exact hexec
          · rw [hdiag]
            cases hw : r.warning with
            | some w => simp [hw, List.filterMap_cons, List.append_assoc]
            | none => simp [hw, List.filterMap_cons]
          · rw [hresp]
            simp
          · intro d hd
            simp only [List.length_cons, List.take_succ_cons, List.filterMap_cons] at hd
            cases hw : r.warning with
            | some w =>
                rw [hw] at hd
                simp at hd
                rcases hd with heq | hmem
                · subst heq
                  exact ⟨rfl, rfl⟩
                · exact htags d (by simpa using hmem)
            | none =>
                rw [hw] at hd
                simp at hd
                exact htags d (by simpa using hd)

/-- A scripted glob service used by the ordering witness: two queries,
warning strings W1 then W2. -/
def globSt : EvalState :=
  { sampleState with globResponses :=
      [{ files := ["Foo.java"], warning := some "W1" },
       { files := ["Foo.c"], warning := some "W2" }] }

theorem glob_warning_diagnostics_in_order_witness :
    ∃ st2,
      execStmts globSt ([["*.java"], ["*.c"]].map
        (fun pats => Stmt.exprStmt (Expr.glob pats [] []))) = .ok st2 ∧
      st2.diagnostics = globSt.diagnostics ++
        ((globSt.globResponses.take 2).filterMap
          (fun r => r.warning.map globWarningDiag)) ∧
      st2.globResponses = globSt.globResponses.drop 2 ∧
      ∀ d ∈ (globSt.globResponses.take 2).filterMap
          (fun r => r.warning.map globWarningDiag),
        d.level = "warning" ∧ d.source = "glob-provider" :=
  glob_warning_diagnostics_in_order [["*.java"], ["*.c"]] globSt (by decide)

/-- C1: sibling includes applied to the same build file use separate
scopes: a top-level name defined only in module A and not exported is
unreachable while evaluating module B — referencing it from B fails
processing of the file with `UndefinedReferenceError` — whether the two
modules are applied as implicit default includes or as consecutive
explicit `include_defs` statements of the body; since A and B are
universally quantified the same holds with the two roles swapped, and the
third conclusion settles the swapped application order as well. -/
theorem sibling_includes_use_separate_scopes
    (root dir : String) (builtins : Env) (procEnv : List (String × String))
    (rs : List GlobResponse)
    (pathA pathB x y : String) (bodyA restB : List Stmt) (v : Value) (stA : EvalState)
    (hbuiltin : List.lookup x builtins = Option.none)
    (hA : execStmts { initState root dir builtins procEnv rs with
      globals := [], dir := dirOf pathA } bodyA = .ok stA)
    (_hdef : List.lookup x stA.globals = some v)
    (_hnex : x ∉ exportedNames stA.globals) :
    process root dir builtins procEnv rs
        [(pathA, bodyA), (pathB, Stmt.assign y (Expr.var x) :: restB)] [] =
      .error (.undefinedReference x) ∧
    process root dir builtins procEnv rs []
        [Stmt.includeDefs pathA bodyA,
         Stmt.includeDefs pathB (Stmt.assign y (Expr.var x) :: restB)] =
      .error (.undefinedReference x) ∧
    process root dir builtins procEnv rs
        [(pathB, Stmt.assign y (Expr.var x) :: restB), (pathA, bodyA)] [] =
      .error (.undefinedReference x) := by
  have hbA : stA.builtins = builtins :=
    execStmts_preserves_builtins _ bodyA stA hA
  refine ⟨?_, ?_, ?_⟩
  · simp [process, execStmts, execStmt, evalExpr, lookupName, List.lookup, hA, hbA, hbuiltin]
  · simp [process, execStmts, execStmt, evalExpr, lookupName, List.lookup, hA, hbA, hbuiltin]
  · simp [process, initState, execStmts, execStmt, evalExpr, lookupName, List.lookup, hbuiltin]

/-- The evaluated scope of the first sibling include of the isolation
witness: it defines `FOO` and exports nothing. -/
def c1StA : EvalState :=
  { sampleState with globals := [("FOO", Value.int 1), ("__all__", Value.strlist [])] }

theorem sibling_includes_use_separate_scopes_witness :
    process "/r" "/r" [] [] []
        [("/r/inc_def1",
          [Stmt.assign "__all__" (Expr.lit (Value.strlist [])),
           Stmt.assign "FOO" (Expr.lit (Value.int 1))]),
         ("/r/inc_def2", Stmt.assign "BAR" (Expr.var "FOO") :: [])] [] =
      .error (.undefinedReference "FOO") ∧
    process "/r" "/r" [] [] [] []
        [Stmt.includeDefs "/r/inc_def1"
          [Stmt.assign "__all__" (Expr.lit (Value.strlist [])),
           Stmt.assign "FOO" (Expr.lit (Value.int 1))],
         Stmt.includeDefs "/r/inc_def2" (Stmt.assign "BAR" (Expr.var "FOO") :: [])] =
      .error (.undefinedReference "FOO") ∧
    process "/r" "/r" [] [] []
        [("/r/inc_def2", Stmt.assign "BAR" (Expr.var "FOO") :: []),
         ("/r/inc_def1",
          [Stmt.assign "__all__" (Expr.lit (Value.strlist [])),
           Stmt.assign "FOO" (Expr.lit (Value.int 1))])] [] =
      .error (.undefinedReference "FOO") :=
  sibling_includes_use_separate_scopes "/r" "/r" [] [] []
    "/r/inc_def1" "/r/inc_def2" "FOO" "BAR"
    [Stmt.assign "__all__" (Expr.lit (Value.strlist [])),
     Stmt.assign "FOO" (Expr.lit (Value.int 1))]
    [] (Value.int 1) c1StA rfl rfl rfl (by decide)

end BuckParser
